import Mathlib

/-!
Verification of the PSK-31 client core: a shallow embedding of the
CAT protocol layer, the varicode codec, and the DSP state machines
(AGC, clock recovery, Costas/NCO state, PSK-31 encoder), with theorems
checking the documented properties against the embedded code.

Machine integers are modelled as `Nat` with explicit `% 2 ^ w` where
overflow can occur; `f32`/`f64` arithmetic that only uses field and order
operations is modelled over `ℚ`; trigonometric sample generation is
modelled over `ℝ`.
-/

namespace Psk31

/-! ## Rust string-operation semantics used by the CAT layer -/

/-- Semantics of Rust `str::trim`: drop whitespace from both ends. -/
def rustTrim (s : List Char) : List Char :=
  ((s.dropWhile Char.isWhitespace).reverse.dropWhile Char.isWhitespace).reverse

/-- Semantics of Rust `str::trim_end_matches(c)`: drop every trailing
occurrence of `c`. -/
def rustTrimEnd (c : Char) (s : List Char) : List Char :=
  (s.reverse.dropWhile (fun x => x == c)).reverse

/-- Semantics of Rust `str::parse::<uN>()` restricted to the `2 ^ w` range:
an optional leading `+`, then one or more ASCII digits whose value fits. -/
def rustParseNat (w : Nat) (s : List Char) : Option Nat :=
  let s := match s with
    | '+' :: rest => rest
    | _ => s
  if s ≠ [] ∧ s.all Char.isDigit then
    let v := s.foldl (fun acc c => acc * 10 + (c.toNat - '0'.toNat)) 0
    if v < 2 ^ w then some v else none
  else none

/-- Semantics of the Rust format spec `{:0W}` on an unsigned value: pad the
decimal representation with leading zeros up to a minimum width `w`
(`w - length = 0` when the representation is already long enough). -/
def rustFormatFill0 (w : Nat) (s : String) : String :=
  String.mk (List.replicate (w - s.length) '0' ++ s.data)

/-! ## CAT layer (src-tauri/src/cat) -/

/-- Error type from domain/error.rs restricted to the variant the CAT layer
uses; diagnostic text is abbreviated. -/
inductive Psk31Error where
  | Cat : String → Psk31Error
  deriving DecidableEq, Repr

/-- Commands from cat/mod.rs (`CatCommand`). -/
inductive CatCommand where
  | GetFrequencyA
  | SetFrequencyA : Nat → CatCommand
  | GetMode
  | SetMode : String → CatCommand
  | PttOff
  | PttOn
  | GetTxPower
  | SetTxPower : Nat → CatCommand
  deriving DecidableEq, Repr

/-- Responses from cat/mod.rs (`CatResponse`). -/
inductive CatResponse where
  | FrequencyHz : Nat → CatResponse
  | Mode : String → CatResponse
  | TxPower : Nat → CatResponse
  | Ack
  deriving DecidableEq, Repr

/-- Decidable equality for `Except`, for evaluating decode results. -/
instance {e a : Type} [DecidableEq e] [DecidableEq a] :
    DecidableEq (Except e a) := fun x y =>
  match x, y with
  | .ok u, .ok v =>
      if h : u = v then .isTrue (h ▸ rfl)
      else .isFalse (fun hh => h (Except.ok.inj hh))
  | .error u, .error v =>
      if h : u = v then .isTrue (h ▸ rfl)
      else .isFalse (fun hh => h (Except.error.inj hh))
  | .ok _, .error _ => .isFalse (fun hh => Except.noConfusion hh)
  | .error _, .ok _ => .isFalse (fun hh => Except.noConfusion hh)

/-- Mode table from cat/mod.rs (`MODE_TABLE`). -/
def MODE_TABLE : List (String × String) :=
  [("1", "LSB"), ("2", "USB"), ("3", "CW"), ("4", "FM"), ("5", "AM"),
   ("6", "RTTY-LSB"), ("7", "CW-R"), ("8", "DATA-LSB"), ("9", "RTTY-USB"),
   ("A", "DATA-FM"), ("B", "FM-N"), ("C", "DATA-USB"), ("D", "AM-N"),
   ("E", "C4FM")]

/-- Pure encoder from cat/encode.rs (`encode`): command to wire string. -/
def encode (cmd : CatCommand) : String :=
  match cmd with
  | .GetFrequencyA => "FA;"
  | .SetFrequencyA hz => "FA" ++ rustFormatFill0 11 (Nat.repr hz) ++ ";"
  | .GetMode => "MD0;"
  | .SetMode name =>
      let code := (((MODE_TABLE.find? (fun p => p.2 = name)).map Prod.fst).getD "C")
      "MD0" ++ code ++ ";"
  | .PttOff => "TX0;"
  | .PttOn => "TX1;"
  | .GetTxPower => "PC;"
  | .SetTxPower w => "PC" ++ rustFormatFill0 3 (Nat.repr w) ++ ";"

/-- Frequency-response parser from cat/decode.rs (`parse_frequency`). -/
def parse_frequency (response : String) : Except Psk31Error CatResponse :=
  let trimmed := rustTrimEnd ';' (rustTrim response.data)
  if ['F', 'A'].isPrefixOf trimmed ∧ 13 ≤ trimmed.length then
    let digits := (trimmed.drop 2).take 11
    match rustParseNat 64 digits with
    | some hz => .ok (.FrequencyHz hz)
    | none => .error (.Cat "Failed to parse frequency")
  else
    .error (.Cat "Invalid frequency response")

/-- Mode-response parser from cat/decode.rs (`parse_mode`). -/
def parse_mode (response : String) : Except Psk31Error CatResponse :=
  let trimmed := rustTrimEnd ';' (rustTrim response.data)
  if ['M', 'D', '0'].isPrefixOf trimmed ∧ 4 ≤ trimmed.length then
    let code := (trimmed.drop 3).take 1
    match MODE_TABLE.find? (fun p => p.1.data = code) with
    | some p => .ok (.Mode p.2)
    | none => .error (.Cat "Unknown mode code")
  else
    .error (.Cat "Invalid mode response")

/-- TX-power-response parser from cat/decode.rs (`parse_tx_power`). -/
def parse_tx_power (response : String) : Except Psk31Error CatResponse :=
  let trimmed := rustTrimEnd ';' (rustTrim response.data)
  if ['P', 'C'].isPrefixOf trimmed ∧ 5 ≤ trimmed.length then
    let digits := (trimmed.drop 2).take 3
    match rustParseNat 32 digits with
    | some watts => .ok (.TxPower watts)
    | none => .error (.Cat "Failed to parse TX power")
  else
    .error (.Cat "Invalid TX power response")

/-- Ack parser from cat/decode.rs (`expect_ack`). -/
def expect_ack (response : String) : Except Psk31Error CatResponse :=
  let trimmed := rustTrim response.data
  if trimmed = [';'] ∨ trimmed = [] then .ok .Ack
  else .error (.Cat "Expected Ack")

/-- Pure decoder from cat/decode.rs (`decode`): wire string plus the
originating command to a typed response. -/
def decode (response : String) (cmd : CatCommand) : Except Psk31Error CatResponse :=
  if String.mk (rustTrimEnd ';' response.data) = "?" ∨ response = "?" then
    .error (.Cat "Radio NAK")
  else
    match cmd with
    | .GetFrequencyA => parse_frequency response
    | .SetFrequencyA _ => expect_ack response
    | .GetMode => parse_mode response
    | .SetMode _ => expect_ack response
    | .PttOn => expect_ack response
    | .PttOff => expect_ack response
    | .GetTxPower => parse_tx_power response
    | .SetTxPower _ => expect_ack response

/-! ## FT-991A radio adapter (src-tauri/src/adapters/ft991a.rs) -/

/-- US amateur band list from adapters/ft991a.rs (`AMATEUR_BANDS_HZ`). -/
def AMATEUR_BANDS_HZ : List (Nat × Nat) :=
  [(1800000, 2000000), (3500000, 4000000), (5332000, 5405000),
   (7000000, 7300000), (10100000, 10150000), (14000000, 14350000),
   (18068000, 18168000), (21000000, 21450000), (24890000, 24990000),
   (28000000, 29700000), (50000000, 54000000), (144000000, 148000000),
   (420000000, 450000000)]

/-- Band membership check from adapters/ft991a.rs (`is_amateur_frequency`). -/
def is_amateur_frequency (hz : Nat) : Bool :=
  AMATEUR_BANDS_HZ.any (fun p => decide (p.1 ≤ hz) && decide (hz ≤ p.2))

/-- Wire strings written to the serial port by
`Ft991aRadio::set_frequency(freq)` with `hz = freq.as_hz() as u64`.
In the source the function formats `FA{hz:011};` and hands it to
`send_command`, whose first serial action is the write; no validation
happens before it, so the command is always written. -/
def set_frequency_writes (hz : Nat) : List String :=
  ["FA" ++ rustFormatFill0 11 (Nat.repr hz) ++ ";"]

/-- Modelled from the spec: `set_tx_power` is declared in the `RadioControl`
trait (ports/radio.rs) but the `Ft991aRadio` implementation of the two TX
power methods is absent from the source tree. Spec section 4.13 says the
adapter validates TX power ≤ 100 W before sending; on success the wire
bytes are the `encode` of `SetTxPower` from cat/encode.rs, on failure
nothing is written. The result is the list of wire strings written. -/
def set_tx_power_writes (w : Nat) : List String :=
  if w ≤ 100 then [encode (.SetTxPower w)] else []

/-! ## Varicode (src-tauri/src/modem/varicode.rs) -/

/-- Character-to-varicode table from `Varicode::encode`, keyed by the
codepoint after the source's `ch as u8` truncation: codepoints 0..=127 map
to their code string, everything else to `none`. -/
def Varicode.encode (c : Nat) : Option String :=
  match c with
  | 0 => some "1010101011"
  | 1 => some "1011011011"
  | 2 => some "1011101101"
  | 3 => some "1101110111"
  | 4 => some "1011101011"
  | 5 => some "1101011111"
  | 6 => some "1011101111"
  | 7 => some "1011111101"
  | 8 => some "1011111111"
  | 9 => some "11101111"
  | 10 => some "11101"
  | 11 => some "1101101111"
  | 12 => some "1011011101"
  | 13 => some "11111"
  | 14 => some "1101110101"
  | 15 => some "1110101011"
  | 16 => some "1011110111"
  | 17 => some "1011110101"
  | 18 => some "1110101101"
  | 19 => some "1110101111"
  | 20 => some "1101011011"
  | 21 => some "1101101011"
  | 22 => some "1101101101"
  | 23 => some "1101010111"
  | 24 => some "1101111011"
  | 25 => some "1101111101"
  | 26 => some "1110110111"
  | 27 => some "1101010101"
  | 28 => some "1101011101"
  | 29 => some "1110111011"
  | 30 => some "1011111011"
  | 31 => some "1101111111"
  | 32 => some "1"
  | 33 => some "111111111"
  | 34 => some "101011111"
  | 35 => some "111110101"
  | 36 => some "111011011"
  | 37 => some "1011010101"
  | 38 => some "1010111011"
  | 39 => some "101111111"
  | 40 => some "11111011"
  | 41 => some "11110111"
  | 42 => some "101101111"
  | 43 => some "111011111"
  | 44 => some "1110101"
  | 45 => some "110101"
  | 46 => some "1010111"
  | 47 => some "110101111"
  | 48 => some "10110111"
  | 49 => some "10111101"
  | 50 => some "11101101"
  | 51 => some "11111111"
  | 52 => some "101110111"
  | 53 => some "101011011"
  | 54 => some "101101011"
  | 55 => some "110101101"
  | 56 => some "110101011"
  | 57 => some "110110111"
  | 58 => some "11110101"
  | 59 => some "110111101"
  | 60 => some "111101101"
  | 61 => some "1010101"
  | 62 => some "111010111"
  | 63 => some "1010101111"
  | 64 => some "1010111101"
  | 65 => some "1111101"
  | 66 => some "11101011"
  | 67 => some "10101101"
  | 68 => some "10110101"
  | 69 => some "1110111"
  | 70 => some "11011011"
  | 71 => some "11111101"
  | 72 => some "101010101"
  | 73 => some "1111111"
  | 74 => some "111111101"
  | 75 => some "101111101"
  | 76 => some "11010111"
  | 77 => some "10111011"
  | 78 => some "11011101"
  | 79 => some "10101011"
  | 80 => some "11010101"
  | 81 => some "111011101"
  | 82 => some "10101111"
  | 83 => some "1101111"
  | 84 => some "1101101"
  | 85 => some "101010111"
  | 86 => some "110110101"
  | 87 => some "101011101"
  | 88 => some "101110101"
  | 89 => some "101111011"
  | 90 => some "1010101101"
  | 91 => some "111110111"
  | 92 => some "111101111"
  | 93 => some "111111011"
  | 94 => some "1010111111"
  | 95 => some "101101101"
  | 96 => some "1011011111"
  | 97 => some "1011"
  | 98 => some "1011111"
  | 99 => some "101111"
  | 100 => some "101101"
  | 101 => some "11"
  | 102 => some "111101"
  | 103 => some "1011011"
  | 104 => some "101011"
  | 105 => some "1101"
  | 106 => some "111101011"
  | 107 => some "10111111"
  | 108 => some "11011"
  | 109 => some "111011"
  | 110 => some "1111"
  | 111 => some "111"
  | 112 => some "111111"
  | 113 => some "110111111"
  | 114 => some "10101"
  | 115 => some "10111"
  | 116 => some "101"
  | 117 => some "110111"
  | 118 => some "1111011"
  | 119 => some "1101011"
  | 120 => some "11011111"
  | 121 => some "1011101"
  | 122 => some "111010101"
  | 123 => some "1010110111"
  | 124 => some "110111011"
  | 125 => some "1010110101"
  | 126 => some "1011010111"
  | 127 => some "1110110101"
  | _ => none

/-- Bit-string conversion from `Varicode::bits_from_str`. -/
def Varicode.bits_from_str (s : String) : List Bool :=
  s.data.map (fun c => c == '1')

/-- Wrap of a `u16` value (`bit_buffer` shifts in the source wrap here). -/
def u16wrap (n : Nat) : Nat := n % 2 ^ 16

/-- Wrap of a `u8` value (`bit_count` and `consecutive_zeros` increments in
the source wrap here; an increment that wraps is a u8 overflow, which in a
debug build of the source is a panic). -/
def u8wrap (n : Nat) : Nat := n % 2 ^ 8

/-- Decoder state from `VaricodeDecoder`. -/
structure VaricodeDecoder where
  bit_buffer : Nat
  bit_count : Nat
  consecutive_zeros : Nat
  deriving DecidableEq, Repr

/-- Fresh decoder from `VaricodeDecoder::new` (also the result of `reset`). -/
def VaricodeDecoder.new : VaricodeDecoder :=
  { bit_buffer := 0, bit_count := 0, consecutive_zeros := 0 }

/-- Zero-flush loop from `push_bit`'s `for _ in 0..self.consecutive_zeros`
body: shift a zero into the buffer and count it, once per pending zero. -/
def flushZeros : Nat → Nat × Nat → Nat × Nat
  | 0, st => st
  | k + 1, (buf, cnt) => flushZeros k (u16wrap (buf * 2), u8wrap (cnt + 1))

/-- Code lookup from `VaricodeDecoder::lookup_code`: linear scan over
codepoints 0..=127 for an exact match on both length and bit pattern. -/
def VaricodeDecoder.lookup_code (d : VaricodeDecoder) : Option Char :=
  (List.range 128).findSome? (fun ch =>
    match Varicode.encode ch with
    | none => none
    | some code_str =>
        let code_bits := code_str.data.foldl
          (fun acc c => u16wrap (acc * 2 + (if c == '1' then 1 else 0))) 0
        let code_len := code_str.length
        if code_len = d.bit_count ∧ code_bits = d.bit_buffer
        then some (Char.ofNat ch) else none)

/-- Bit push from `VaricodeDecoder::push_bit`: a `1` flushes pending zeros
into the buffer and appends itself; a `0` is deferred, and a second
consecutive `0` with a non-empty buffer looks the buffer up and clears the
state. Returns the new state and the emitted character, if any. -/
def VaricodeDecoder.push_bit (d : VaricodeDecoder) (bit : Bool) :
    VaricodeDecoder × Option Char :=
  if bit then
    let st := flushZeros d.consecutive_zeros (d.bit_buffer, d.bit_count)
    ({ bit_buffer := u16wrap (st.1 * 2 + 1), bit_count := u8wrap (st.2 + 1),
       consecutive_zeros := 0 }, none)
  else
    let z := u8wrap (d.consecutive_zeros + 1)
    if 2 ≤ z ∧ 0 < d.bit_count then
      ({ bit_buffer := 0, bit_count := 0, consecutive_zeros := 0 },
       d.lookup_code)
    else
      ({ d with consecutive_zeros := z }, none)

/-- Streaming run of the decoder over a bit list: final state and the list
of emitted characters, in order. -/
def VaricodeDecoder.runState (d : VaricodeDecoder) :
    List Bool → VaricodeDecoder × List Char
  | [] => (d, [])
  | b :: bs =>
      let s := d.push_bit b
      let r := s.1.runState bs
      (r.1, (match s.2 with | some ch => [ch] | none => []) ++ r.2)

/-- Bit stream for one codepoint as the claims describe it: the code's bits
followed by the two-bit `00` separator (empty for unsupported codepoints). -/
def Varicode.charStream (c : Nat) : List Bool :=
  match Varicode.encode c with
  | some s => Varicode.bits_from_str s ++ [false, false]
  | none => []

/-! ## AGC (src-tauri/src/dsp/agc.rs), over exact rationals -/

/-- Semantics of Rust `clamp(lo, hi)` on an ordered field value
(assuming `lo ≤ hi`, which holds at every call site below). -/
def rustClamp (x lo hi : ℚ) : ℚ := min (max x lo) hi

/-- AGC state from `Agc`. -/
structure Agc where
  target_level : ℚ
  attack_rate : ℚ
  decay_rate : ℚ
  gain : ℚ
  max_gain : ℚ
  min_gain : ℚ
  deriving DecidableEq, Repr

/-- Constructor from `Agc::new`. -/
def Agc.new (target_level : ℚ) : Agc :=
  { target_level := target_level
    attack_rate := 1 / 100
    decay_rate := 1 / 1000
    gain := 1
    max_gain := 100
    min_gain := 1 / 100 }

/-- One sample through `Agc::process`: amplify, steer the gain by
attack/decay depending on the output level, clamp the gain, clamp the
output. Returns the new state and the output sample. -/
def Agc.process (a : Agc) (sample : ℚ) : Agc × ℚ :=
  let output := sample * a.gain
  let level := |output|
  let gain := if a.target_level < level then a.gain * (1 - a.attack_rate)
              else a.gain * (1 + a.decay_rate)
  let gain := rustClamp gain a.min_gain a.max_gain
  ({ a with gain := gain }, rustClamp output (-1) 1)

/-- Fold of `Agc::process` over a list of input samples. -/
def Agc.run (a : Agc) : List ℚ → Agc
  | [] => a
  | x :: xs => ((a.process x).1).run xs

/-! ## Clock recovery (src-tauri/src/dsp/clock_recovery.rs), over rationals -/

/-- Mueller-Muller clock recovery state from `ClockRecovery`. -/
structure ClockRecovery where
  samples_per_symbol : ℚ
  omega : ℚ
  gain_omega : ℚ
  last_symbol : ℚ
  sample_count : ℚ
  deriving DecidableEq, Repr

/-- Constructor from `ClockRecovery::new`. -/
def ClockRecovery.new (samples_per_symbol : ℚ) : ClockRecovery :=
  { samples_per_symbol := samples_per_symbol
    omega := samples_per_symbol
    gain_omega := 1 / 1000
    last_symbol := 0
    sample_count := 0 }

/-- One sample through `ClockRecovery::process`: count samples, and at a
decision point compute the Mueller-Muller timing error, nudge omega,
clamp it to ±10 % of nominal, and emit the decision value. -/
def ClockRecovery.process (c : ClockRecovery) (sample : ℚ) :
    ClockRecovery × Option ℚ :=
  let count := c.sample_count + 1
  if c.omega ≤ count then
    let count := count - c.omega
    let decision : ℚ := if 0 ≤ sample then 1 else -1
    let last_decision : ℚ := if 0 ≤ c.last_symbol then 1 else -1
    let timing_error := last_decision * sample - decision * c.last_symbol
    let omega := c.omega + c.gain_omega * timing_error
    let omega := rustClamp omega (c.samples_per_symbol * (9 / 10))
      (c.samples_per_symbol * (11 / 10))
    ({ c with sample_count := count, omega := omega, last_symbol := sample },
     some sample)
  else
    ({ c with sample_count := count }, none)

/-! ## NCO and Costas loop state (src-tauri/src/dsp/nco.rs, costas_loop.rs)

Only the state and the operations used by `Psk31Decoder::set_carrier_freq`
and by the encoder are modelled (`new`, `set_frequency`, `adjust_phase`,
`reset`, and the cosine sample generation of `next`); the Costas per-sample
processing is not needed by any claim below. -/

/-- Oscillator state from `Nco`. -/
structure Nco where
  phase : ℝ
  phase_increment : ℝ
  sample_rate : ℝ

/-- Constructor from `Nco::new`. -/
noncomputable def Nco.new (frequency sample_rate : ℝ) : Nco :=
  { phase := 0
    phase_increment := 2 * Real.pi * frequency / sample_rate
    sample_rate := sample_rate }

/-- Frequency update from `Nco::set_frequency`. -/
noncomputable def Nco.set_frequency (n : Nco) (frequency : ℝ) : Nco :=
  { n with phase_increment := 2 * Real.pi * frequency / n.sample_rate }

/-- Normalisation into [0, 2π) performed by `Nco::wrap_phase`; the two
source `while` loops subtract or add `2π` until the phase lands in the
interval, which for a finite phase is exactly this floor expression. -/
noncomputable def wrap_phase (p : ℝ) : ℝ :=
  p - 2 * Real.pi * ⌊p / (2 * Real.pi)⌋

/-- Phase adjustment from `Nco::adjust_phase` (used by the PLL and by the
encoder's 180° flips). -/
noncomputable def Nco.adjust_phase (n : Nco) (delta : ℝ) : Nco :=
  { n with phase := wrap_phase (n.phase + delta) }

/-- Phase reset from `Nco::reset`. -/
def Nco.reset (n : Nco) : Nco := { n with phase := 0 }

/-- Costas loop state from `CostasLoop`. -/
structure CostasLoop where
  nco : Nco
  filtered_i : ℝ
  filtered_q : ℝ
  alpha : ℝ
  proportional_gain : ℝ
  integral_gain : ℝ
  integrator : ℝ

/-- Constructor from `CostasLoop::new` (the `loop_bandwidth` argument of the
source is unused beyond documentation and omitted). -/
noncomputable def CostasLoop.new (carrier_freq sample_rate : ℝ) : CostasLoop :=
  { nco := Nco.new carrier_freq sample_rate
    filtered_i := 0
    filtered_q := 0
    alpha := 2 * Real.pi * 50 / sample_rate
    proportional_gain := 1 / 100
    integral_gain := 5 / 1000000
    integrator := 0 }

/-- Retune from `CostasLoop::set_frequency`. -/
noncomputable def CostasLoop.set_frequency (c : CostasLoop) (freq : ℝ) :
    CostasLoop :=
  { c with nco := c.nco.set_frequency freq }

/-- State clear from `CostasLoop::reset`. -/
def CostasLoop.reset (c : CostasLoop) : CostasLoop :=
  { c with
    nco := c.nco.reset
    filtered_i := 0
    filtered_q := 0
    integrator := 0 }

/-! ## PSK-31 encoder (src-tauri/src/modem/encoder.rs) -/

/-- Samples per symbol at 48 kHz / 31.25 baud (`SAMPLES_PER_SYMBOL`). -/
def SAMPLES_PER_SYMBOL : Nat := 1536

/-- Preamble length in bits (`PREAMBLE_BITS`). -/
def PREAMBLE_BITS : Nat := 32

/-- Postamble length in bits (`POSTAMBLE_BITS`). -/
def POSTAMBLE_BITS : Nat := 32

/-- Encoder parameters from `Psk31Encoder`. -/
structure Psk31Encoder where
  sample_rate : Nat
  carrier_freq : ℝ

/-- Raised-cosine envelope from `RaisedCosineShaper::generate_envelope`:
all ones without a phase change, overwritten with `|cos(π·i/n)|` when the
symbol has one. -/
noncomputable def generate_envelope (n : Nat) (phase_change : Bool) : List ℝ :=
  if phase_change then
    (List.range n).map (fun (i : Nat) => |Real.cos (Real.pi * ((i : ℝ) / (n : ℝ)))|)
  else
    List.replicate n (1 : ℝ)

/-- Inner sample loop of `Psk31Encoder::bits_to_samples`: one `nco.next()`
cosine sample per envelope entry, multiplied by that entry. -/
noncomputable def Nco.modulate (n : Nco) : List ℝ → Nco × List ℝ
  | [] => (n, [])
  | e :: env =>
      let sample := Real.cos n.phase
      let n := { n with phase := wrap_phase (n.phase + n.phase_increment) }
      let r := n.modulate env
      (r.1, sample * e :: r.2)

/-- Per-bit loop of `Psk31Encoder::bits_to_samples`: a `0` bit flips the
carrier phase by π at the symbol start, then 1536 shaped samples follow. -/
noncomputable def bitsToSamplesLoop (nco : Nco) : List Bool → List ℝ
  | [] => []
  | bit :: bits =>
      let phase_change := !bit
      let envelope := generate_envelope SAMPLES_PER_SYMBOL phase_change
      let nco := if phase_change then nco.adjust_phase Real.pi else nco
      let r := nco.modulate envelope
      r.2 ++ bitsToSamplesLoop r.1 bits

/-- Bit stream construction from `Psk31Encoder::text_to_bits`: 32 zero
preamble bits, each character's varicode followed by the `00` separator
(unsupported characters silently skipped), 32 zero postamble bits. -/
def Psk31Encoder.text_to_bits (text : String) : List Bool :=
  List.replicate PREAMBLE_BITS false
  ++ (text.data.flatMap (fun ch =>
        match Varicode.encode (ch.toNat % 2 ^ 8) with
        | some code_str => Varicode.bits_from_str code_str ++ [false, false]
        | none => []))
  ++ List.replicate POSTAMBLE_BITS false

/-- Whole-message encoding from `Psk31Encoder::encode`. -/
noncomputable def Psk31Encoder.encode (e : Psk31Encoder) (text : String) :
    List ℝ :=
  bitsToSamplesLoop (Nco.new e.carrier_freq (e.sample_rate : ℝ))
    (Psk31Encoder.text_to_bits text)

/-! ## PSK-31 decoder state (src-tauri/src/modem/decoder.rs) -/

/-- Decoder state from `Psk31Decoder`. -/
structure Psk31Decoder where
  agc : Agc
  costas_loop : CostasLoop
  clock_recovery : ClockRecovery
  varicode_decoder : VaricodeDecoder
  last_symbol : ℚ
  bits_without_char : Nat
  invert_bits : Bool
  sample_rate : Nat
  carrier_freq : ℝ

/-- Retune from `Psk31Decoder::set_carrier_freq`: store the frequency,
retune then reset the Costas loop, rebuild clock recovery at the nominal
rate (`sample_rate / 31.25`), reset the varicode decoder, and zero the
bit-layer state; the AGC field is not touched. -/
noncomputable def Psk31Decoder.set_carrier_freq (d : Psk31Decoder) (freq : ℝ) :
    Psk31Decoder :=
  { d with
    carrier_freq := freq,
    costas_loop := (d.costas_loop.set_frequency freq).reset,
    clock_recovery := ClockRecovery.new ((d.sample_rate : ℚ) / (125 / 4)),
    varicode_decoder := VaricodeDecoder.new,
    last_symbol := 0,
    bits_without_char := 0,
    invert_bits := false }

/-- Bit stream for a sequence of codepoints as the round-trip claims
describe it: each code's bits followed by the `00` separator. -/
def encodeStream : List Nat → List Bool
  | [] => []
  | c :: cs => Varicode.charStream c ++ encodeStream cs


/-! ## Theorems -/

theorem string_data_append (a b : String) : (a ++ b).data = a.data ++ b.data :=
  rfl

/-- C2: the claim says an out-of-band frequency makes the adapter's
`set_frequency` fail with no bytes written to the serial port, but
`Ft991aRadio::set_frequency` performs no band validation (only the
`get_frequency` parse path calls `is_amateur_frequency`): evaluated at the
out-of-band input 10 MHz it still writes the formatted command, exactly as
it does at the in-band input 14.07 MHz. -/
theorem c2_set_frequency_unvalidated_write :
    is_amateur_frequency 10000000 = false ∧
    set_frequency_writes 10000000 = ["FA00010000000;"] ∧
    is_amateur_frequency 14070000 = true ∧
    set_frequency_writes 14070000 = ["FA00014070000;"] := by decide

/-- C3: `encode (SetFrequencyA 14070000)` is exactly `FA00014070000;`, that
wire string decodes back to `FrequencyHz 14070000` under `GetFrequencyA`,
and for every `u64` value the encoding is `FA` followed by the decimal
digits zero-padded to width 11 and the `;` terminator. -/
theorem c3_cat_frequency_encode (hz : Nat) (h : hz < 2 ^ 64) :
    encode (.SetFrequencyA 14070000) = "FA00014070000;" ∧
    decode "FA00014070000;" .GetFrequencyA = .ok (.FrequencyHz 14070000) ∧
    (encode (.SetFrequencyA hz)).data
      = 'F' :: 'A' :: (List.replicate (11 - (Nat.repr hz).length) '0'
          ++ (Nat.repr hz).data ++ [';']) := by
  refine ⟨by decide, by decide, ?_⟩
  show ("FA" ++ rustFormatFill0 11 (Nat.repr hz) ++ ";").data = _
  rw [string_data_append, string_data_append]
  simp [rustFormatFill0, List.append_assoc]

/-- Witness for C3 at the concrete frequency 14 070 000 Hz. -/
theorem c3_cat_frequency_encode_witness :
    (encode (.SetFrequencyA 14070000)).data
      = 'F' :: 'A' :: (List.replicate (11 - (Nat.repr 14070000).length) '0'
          ++ (Nat.repr 14070000).data ++ [';']) :=
  (c3_cat_frequency_encode 14070000 (by decide)).2.2

/-- C4: for every `(code, name)` pair of the fourteen-entry mode table,
`encode (SetMode name)` is exactly `MD0` + code + `;`, and decoding that
wire string under `GetMode` returns `Mode name`. -/
theorem c4_mode_roundtrip (code name : String) (h : (code, name) ∈ MODE_TABLE) :
    encode (.SetMode name) = "MD0" ++ code ++ ";" ∧
    decode ("MD0" ++ code ++ ";") .GetMode = .ok (.Mode name) := by
  have hall : ∀ p ∈ MODE_TABLE,
      encode (.SetMode p.2) = "MD0" ++ p.1 ++ ";" ∧
      decode ("MD0" ++ p.1 ++ ";") .GetMode = .ok (.Mode p.2) := by decide
  exact hall (code, name) h

/-- Witness for C4 at the first table entry, `("1", "LSB")`. -/
theorem c4_mode_roundtrip_witness :
    encode (.SetMode "LSB") = "MD0" ++ "1" ++ ";" ∧
    decode ("MD0" ++ "1" ++ ";") .GetMode = .ok (.Mode "LSB") :=
  c4_mode_roundtrip "1" "LSB" (by decide)

/-- C5: for TX power 0..=100 the adapter writes exactly one wire string,
`PC` + zero-padded 3-digit value + `;`; for values above 100 the command is
rejected and nothing is written. The adapter-level validation is modelled
from the spec (`set_tx_power_writes`); the wire string is the source
`encode`. -/
theorem c5_tx_power_validation (w : Nat) :
    (w ≤ 100 →
      set_tx_power_writes w = ["PC" ++ rustFormatFill0 3 (Nat.repr w) ++ ";"] ∧
      (rustFormatFill0 3 (Nat.repr w)).length = 3) ∧
    (100 < w → set_tx_power_writes w = []) := by
  constructor
  · intro hw
    refine ⟨?_, ?_⟩
    · simp [set_tx_power_writes, hw, encode]
    · have hall : ∀ v ∈ List.range 101,
          (rustFormatFill0 3 (Nat.repr v)).length = 3 := by decide
      exact hall w (List.mem_range.mpr (Nat.lt_succ_of_le hw))
  · intro hw
    simp [set_tx_power_writes, Nat.not_le.mpr hw]

/-- Witness for C5 at 25 W (accepted) and 101 W (rejected). -/
theorem c5_tx_power_validation_witness :
    set_tx_power_writes 25 = ["PC" ++ rustFormatFill0 3 (Nat.repr 25) ++ ";"] ∧
    set_tx_power_writes 101 = [] :=
  ⟨((c5_tx_power_validation 25).1 (by decide)).1,
   (c5_tx_power_validation 101).2 (by decide)⟩

/-- C10: the claim says the `u8` consecutive-zeros counter cannot overflow
while the code register is empty, but feeding a fresh decoder 255 zero bits
leaves the counter at 255 with `bit_count = 0`, and the 256th zero wraps it
to 0: that increment overflows the `u8` (a panic in a debug build of the
source, a silent wrap in a release build). -/
theorem runState_idle_zeros (k : Nat) : ∀ z, z < 2 ^ 8 →
    VaricodeDecoder.runState ⟨0, 0, z⟩ (List.replicate k false)
      = (⟨0, 0, (z + k) % 2 ^ 8⟩, []) := by
  induction k with
  | zero =>
      intro z hz
      simp only [VaricodeDecoder.runState, List.replicate_zero, Prod.mk.injEq,
        VaricodeDecoder.mk.injEq]
      simp only [true_and, and_true]
      omega
  | succ k ih =>
      intro z hz
      rw [List.replicate_succ]
      have hstep : VaricodeDecoder.push_bit ⟨0, 0, z⟩ false
          = (⟨0, 0, (z + 1) % 2 ^ 8⟩, none) := by
        simp [VaricodeDecoder.push_bit, u8wrap]
      simp only [VaricodeDecoder.runState, hstep]
      rw [ih ((z + 1) % 2 ^ 8) (Nat.mod_lt _ (by norm_num))]
      simp only [List.nil_append, Prod.mk.injEq, VaricodeDecoder.mk.injEq]
      simp only [true_and, and_true]
      omega

/-- C10: the claim says the `u8` consecutive-zeros counter cannot overflow
while the code register is empty, but feeding a fresh decoder 255 zero bits
leaves the counter at 255 with `bit_count = 0`, and the 256th zero wraps it
to 0: that increment overflows the `u8` (a panic in a debug build of the
source, a silent wrap in a release build). -/
theorem c10_consecutive_zeros_overflow :
    (VaricodeDecoder.new.runState (List.replicate 255 false)).1.consecutive_zeros
      = 255 ∧
    (VaricodeDecoder.new.runState (List.replicate 255 false)).1.bit_count = 0 ∧
    (VaricodeDecoder.new.runState (List.replicate 256 false)).1.consecutive_zeros
      = 0 ∧
    u8wrap (255 + 1) = 0 := by
  have h255 : VaricodeDecoder.new.runState (List.replicate 255 false)
      = (⟨0, 0, 255⟩, []) := runState_idle_zeros 255 0 (by norm_num)
  have h256 : VaricodeDecoder.new.runState (List.replicate 256 false)
      = (⟨0, 0, 0⟩, []) := runState_idle_zeros 256 0 (by norm_num)
  exact ⟨by rw [h255], by rw [h255], by rw [h256], by decide⟩

theorem rustClamp_low (x lo hi : ℚ) (h : lo ≤ hi) : lo ≤ rustClamp x lo hi :=
  le_min (le_max_right _ _) h

theorem rustClamp_high (x lo hi : ℚ) : rustClamp x lo hi ≤ hi :=
  min_le_right _ _

theorem rustClamp_le_of_le (x lo hi y : ℚ) (h1 : x ≤ y) (h2 : lo ≤ y) :
    rustClamp x lo hi ≤ y :=
  min_le_of_left_le (max_le h1 h2)

theorem le_rustClamp_of_le (x lo hi y : ℚ) (h1 : y ≤ x) (h2 : y ≤ hi) :
    y ≤ rustClamp x lo hi :=
  le_min (le_trans h1 (le_max_left _ _)) h2

theorem Agc.process_gain_eq (a : Agc) (x : ℚ) :
    (a.process x).1.gain
      = rustClamp
          (if a.target_level < |x * a.gain| then a.gain * (1 - a.attack_rate)
           else a.gain * (1 + a.decay_rate))
          a.min_gain a.max_gain :=
  rfl

theorem Agc.process_gain_bounds (a : Agc) (x : ℚ) (h : a.min_gain ≤ a.max_gain) :
    a.min_gain ≤ (a.process x).1.gain ∧ (a.process x).1.gain ≤ a.max_gain := by
  rw [Agc.process_gain_eq]
  exact ⟨rustClamp_low _ _ _ h, rustClamp_high _ _ _⟩

theorem Agc.run_gain_bounds (xs : List ℚ) : ∀ a : Agc,
    a.min_gain ≤ a.max_gain → a.min_gain ≤ a.gain → a.gain ≤ a.max_gain →
    a.min_gain ≤ (a.run xs).gain ∧ (a.run xs).gain ≤ a.max_gain := by
  induction xs with
  | nil => exact fun a _ h1 h2 => ⟨h1, h2⟩
  | cons x xs ih =>
      intro a hmm _ _
      have hb := Agc.process_gain_bounds a x hmm
      exact ih ((a.process x).1) hmm hb.1 hb.2

theorem Agc.run_fields (xs : List ℚ) : ∀ a : Agc,
    (a.run xs).target_level = a.target_level ∧
    (a.run xs).attack_rate = a.attack_rate ∧
    (a.run xs).decay_rate = a.decay_rate ∧
    (a.run xs).min_gain = a.min_gain ∧
    (a.run xs).max_gain = a.max_gain := by
  induction xs with
  | nil => exact fun a => ⟨rfl, rfl, rfl, rfl, rfl⟩
  | cons x xs ih => exact fun a => ih ((a.process x).1)

theorem Agc.process_gain_mono (a : Agc) (x : ℚ)
    (h0 : 0 ≤ a.min_gain) (h1 : a.min_gain ≤ a.gain) (h2 : a.gain ≤ a.max_gain)
    (ha : 0 ≤ a.attack_rate) (hd : 0 ≤ a.decay_rate) :
    (a.target_level < |x * a.gain| → (a.process x).1.gain ≤ a.gain) ∧
    (|x * a.gain| ≤ a.target_level → a.gain ≤ (a.process x).1.gain) := by
  have hg0 : 0 ≤ a.gain := le_trans h0 h1
  constructor
  · intro hl
    rw [Agc.process_gain_eq, if_pos hl]
    refine rustClamp_le_of_le _ _ _ _ ?_ h1
    nlinarith
  · intro hq
    rw [Agc.process_gain_eq, if_neg (not_lt.mpr hq)]
    refine le_rustClamp_of_le _ _ _ _ ?_ h2
    nlinarith

theorem Agc.process_output_bounds (a : Agc) (x : ℚ) :
    -1 ≤ (a.process x).2 ∧ (a.process x).2 ≤ 1 := by
  have heq : (a.process x).2 = rustClamp (x * a.gain) (-1) 1 := rfl
  rw [heq]
  exact ⟨rustClamp_low _ _ _ (by norm_num), rustClamp_high _ _ _⟩

/-- C7: for the AGC as constructed by `Agc::new` (the decoder uses target
0.5, but any target behaves the same), the gain starts at 1.0 and stays in
[0.01, 100.0] after any sequence of `process` calls; at any reachable state,
a call whose amplified level exceeds the target does not increase the gain
and one whose level is at or below the target does not decrease it; and
every output sample lies in [−1, 1]. -/
theorem c7_agc_invariants (target x : ℚ) (xs : List ℚ) :
    (Agc.new target).gain = 1 ∧
    (1 / 100 ≤ ((Agc.new target).run xs).gain ∧
      ((Agc.new target).run xs).gain ≤ 100) ∧
    (((Agc.new target).run xs).target_level
        < |x * ((Agc.new target).run xs).gain| →
      ((((Agc.new target).run xs).process x).1).gain
        ≤ ((Agc.new target).run xs).gain) ∧
    (|x * ((Agc.new target).run xs).gain|
        ≤ ((Agc.new target).run xs).target_level →
      ((Agc.new target).run xs).gain
        ≤ ((((Agc.new target).run xs).process x).1).gain) ∧
    (-1 ≤ (((Agc.new target).run xs).process x).2 ∧
      (((Agc.new target).run xs).process x).2 ≤ 1) := by
  have hb : (1 : ℚ) / 100 ≤ ((Agc.new target).run xs).gain ∧
      ((Agc.new target).run xs).gain ≤ 100 :=
    Agc.run_gain_bounds xs (Agc.new target) (by norm_num [Agc.new])
      (by norm_num [Agc.new]) (by norm_num [Agc.new])
  obtain ⟨hta, hat, hde, hmi, hma⟩ := Agc.run_fields xs (Agc.new target)
  have hmono := Agc.process_gain_mono ((Agc.new target).run xs) x
    (by rw [hmi]; norm_num [Agc.new]) (by rw [hmi]; exact hb.1)
    (by rw [hma]; exact hb.2) (by rw [hat]; norm_num [Agc.new])
    (by rw [hde]; norm_num [Agc.new])
  exact ⟨rfl, hb, hmono.1, hmono.2,
    Agc.process_output_bounds ((Agc.new target).run xs) x⟩

/-- Witness for C7: decoder target 0.5, the empty run, then one loud call
(level 2 > 0.5) does not increase the gain. -/
theorem c7_agc_invariants_witness :
    (((Agc.new (1 / 2)).run []).process 2).1.gain
      ≤ ((Agc.new (1 / 2)).run []).gain :=
  (c7_agc_invariants (1 / 2) 2 []).2.2.1 (by norm_num [Agc.run, Agc.new])

/-- C9: the clock-recovery estimate starts at the nominal samples-per-symbol
(48000 / 31.25 = 1536 for the decoder's instantiation) and `process`
preserves the nominal rate and keeps the estimate within
[0.9 × nominal, 1.1 × nominal]. -/
theorem c9_clock_recovery_omega (c : ClockRecovery) (x : ℚ)
    (h9 : c.samples_per_symbol * (9 / 10) ≤ c.omega)
    (h11 : c.omega ≤ c.samples_per_symbol * (11 / 10)) :
    (ClockRecovery.new ((48000 : ℚ) / (125 / 4))).omega = 1536 ∧
    (∀ sps : ℚ, (ClockRecovery.new sps).omega = sps) ∧
    (c.process x).1.samples_per_symbol = c.samples_per_symbol ∧
    c.samples_per_symbol * (9 / 10) ≤ (c.process x).1.omega ∧
    (c.process x).1.omega ≤ c.samples_per_symbol * (11 / 10) := by
  refine ⟨by norm_num [ClockRecovery.new], fun sps => rfl, ?_, ?_, ?_⟩ <;>
    by_cases h : c.omega ≤ c.sample_count + 1
  · simp [ClockRecovery.process, h]
  · simp [ClockRecovery.process, h]
  · simp only [ClockRecovery.process, if_pos h]
    exact rustClamp_low _ _ _ (le_trans h9 h11)
  · simp only [ClockRecovery.process, if_neg h]
    exact h9
  · simp only [ClockRecovery.process, if_pos h]
    exact rustClamp_high _ _ _
  · simp only [ClockRecovery.process, if_neg h]
    exact h11

/-- Witness for C9 at the decoder's nominal instantiation and one sample. -/
theorem c9_clock_recovery_omega_witness :
    ((ClockRecovery.new 1536).process 0).1.omega
      ≤ (ClockRecovery.new 1536).samples_per_symbol * (11 / 10) :=
  (c9_clock_recovery_omega (ClockRecovery.new 1536) 0
    (by norm_num [ClockRecovery.new]) (by norm_num [ClockRecovery.new])).2.2.2.2

/-- C8: for every decoder state, `set_carrier_freq` leaves the AGC (in
particular its gain) unchanged, zeroes `last_symbol`, `bits_without_char`
and `invert_bits`, resets the varicode decoder, rebuilds clock recovery at
the nominal samples-per-symbol, and retunes then resets the Costas loop
(filters and integrator cleared, NCO phase zeroed, NCO increment retuned to
the new frequency). -/
theorem c8_set_carrier_freq_effect (d : Psk31Decoder) (freq : ℝ) :
    (d.set_carrier_freq freq).agc = d.agc ∧
    (d.set_carrier_freq freq).agc.gain = d.agc.gain ∧
    (d.set_carrier_freq freq).last_symbol = 0 ∧
    (d.set_carrier_freq freq).bits_without_char = 0 ∧
    (d.set_carrier_freq freq).invert_bits = false ∧
    (d.set_carrier_freq freq).varicode_decoder = VaricodeDecoder.new ∧
    (d.set_carrier_freq freq).clock_recovery
      = ClockRecovery.new ((d.sample_rate : ℚ) / (125 / 4)) ∧
    (d.set_carrier_freq freq).costas_loop.filtered_i = 0 ∧
    (d.set_carrier_freq freq).costas_loop.filtered_q = 0 ∧
    (d.set_carrier_freq freq).costas_loop.integrator = 0 ∧
    (d.set_carrier_freq freq).costas_loop.nco.phase = 0 ∧
    (d.set_carrier_freq freq).costas_loop.nco.phase_increment
      = 2 * Real.pi * freq / d.costas_loop.nco.sample_rate ∧
    (d.set_carrier_freq freq).costas_loop.alpha = d.costas_loop.alpha ∧
    (d.set_carrier_freq freq).carrier_freq = freq :=
  ⟨rfl, rfl, rfl, rfl, rfl, rfl, rfl, rfl, rfl, rfl, rfl, rfl, rfl, rfl⟩

theorem Nco.modulate_length (env : List ℝ) : ∀ n : Nco,
    ((n.modulate env).2).length = env.length := by
  induction env with
  | nil => intro n; rfl
  | cons e env ih =>
      intro n
      simp only [Nco.modulate, List.length_cons]
      rw [ih]

theorem generate_envelope_length (n : Nat) (pc : Bool) :
    (generate_envelope n pc).length = n := by
  cases pc
  · simp only [generate_envelope, Bool.false_eq_true, if_false,
      List.length_replicate]
  · simp only [generate_envelope, if_true, List.length_map, List.length_range]

theorem bitsToSamplesLoop_length (bits : List Bool) : ∀ nco : Nco,
    (bitsToSamplesLoop nco bits).length = bits.length * SAMPLES_PER_SYMBOL := by
  induction bits with
  | nil => intro nco; rfl
  | cons b bs ih =>
      intro nco
      simp only [bitsToSamplesLoop, List.length_append, List.length_cons,
        Nco.modulate_length, generate_envelope_length, ih]
      ring

/-- C6 counterexample: the claim says `encode("HI")` yields
(32 + 8+9+2+7+2 + 32)·1536 = 92·1536 samples, but evaluating the encoder's
bit layer on "HI" gives 84 bits ('H' has the 9-bit code `101010101` and 'I'
the 7-bit code `1111111`), so the sample count is 84·1536, not 92·1536. -/
theorem c6_hi_sample_count_claim_false :
    ¬ ((Psk31Encoder.mk 48000 1000).encode "HI").length
        = (32 + (8 + 9 + 2 + 7 + 2) + 32) * 1536 := by
  have hlen : ((Psk31Encoder.mk 48000 1000).encode "HI").length
      = (Psk31Encoder.text_to_bits "HI").length * SAMPLES_PER_SYMBOL :=
    bitsToSamplesLoop_length _ _
  rw [hlen]
  have hbits : (Psk31Encoder.text_to_bits "HI").length = 84 := by decide
  rw [hbits]
  decide

/-- C6 amended: `Psk31Encoder::encode("HI")` produces exactly
(32 + 9+2+7+2 + 32)·1536 = 84·1536 samples: 32 preamble bits, the 9-bit
varicode of 'H' and the 7-bit varicode of 'I' each followed by the two-bit
`00` separator, and 32 postamble bits, at 1536 samples per bit. -/
theorem c6_hi_sample_count :
    ((Psk31Encoder.mk 48000 1000).encode "HI").length
      = (32 + (9 + 2 + 7 + 2) + 32) * 1536 := by
  have hlen : ((Psk31Encoder.mk 48000 1000).encode "HI").length
      = (Psk31Encoder.text_to_bits "HI").length * SAMPLES_PER_SYMBOL :=
    bitsToSamplesLoop_length _ _
  rw [hlen]
  have hbits : (Psk31Encoder.text_to_bits "HI").length = 84 := by decide
  rw [hbits]
  decide

theorem runState_append (d : VaricodeDecoder) (xs ys : List Bool) :
    d.runState (xs ++ ys)
      = (((d.runState xs).1.runState ys).1,
         (d.runState xs).2 ++ ((d.runState xs).1.runState ys).2) := by
  induction xs generalizing d with
  | nil => simp [VaricodeDecoder.runState]
  | cons b bs ih =>
      simp only [List.cons_append, VaricodeDecoder.runState, List.append_eq]
      rw [ih]
      simp [List.append_assoc]

set_option maxRecDepth 4096 in
theorem charStream_decodes : ∀ c ∈ List.range 128,
    VaricodeDecoder.new.runState (Varicode.charStream c)
      = (VaricodeDecoder.new, [Char.ofNat c]) := by decide

/-- C1: for every codepoint in 0..=127 whose `Varicode::encode` returns a
code, streaming that code's bits followed by the `00` separator through a
fresh `VaricodeDecoder` emits exactly that character and nothing else, and
the same holds for any finite sequence of such codepoints streamed through
one decoder: the emitted characters reproduce the sequence exactly. -/
theorem c1_varicode_roundtrip (cs : List Nat)
    (h : ∀ c ∈ cs, c ≤ 127 ∧ (Varicode.encode c).isSome = true) :
    (VaricodeDecoder.new.runState (encodeStream cs)).2 = cs.map Char.ofNat := by
  induction cs with
  | nil => rfl
  | cons c cs ih =>
      have hc : c ∈ List.range 128 :=
        List.mem_range.mpr (Nat.lt_succ_of_le (h c (List.mem_cons_self c cs)).1)
      have hstep := charStream_decodes c hc
      show (VaricodeDecoder.new.runState
        (Varicode.charStream c ++ encodeStream cs)).2 = _
      rw [runState_append, hstep]
      simp only [List.map_cons]
      rw [ih (fun x hx => h x (List.mem_cons_of_mem _ hx))]
      rfl

/-- Witness for C1 on the sequence "HI" (codepoints 72, 73). -/
theorem c1_varicode_roundtrip_witness :
    (VaricodeDecoder.new.runState (encodeStream [72, 73])).2
      = [72, 73].map Char.ofNat :=
  c1_varicode_roundtrip [72, 73] (by decide)

end Psk31
